import Mathlib

/-!
Verification of the source-to-AST normalization engine in
`src/crawler/ast_ts.ts` (repository `quantum-llama`).

The TypeScript file contains two near-duplicate copies of the whole engine,
separated by a document separator; we embed the first copy in namespace `V1`
(lines 1-420) and the second copy in namespace `V2` (lines 420-842).
Parts that are textually identical in both copies (the attribute extractor,
the skip list, the data model) are shared.

The external `ts-morph` parser is modelled as an oracle: a `NodeInfo`
records, for one syntax node, the answers the parser would give to every
query the engine performs (kind, line span, type guards, accessors), and a
`TSNode` is such a record together with the node's children.  File-system
and parser effects are modelled by an `FS` record of oracles.
-/

namespace AstTs

/-- Syntax kinds.  Only the three kinds the engine treats specially are
distinguished; all others are represented by their numeric tag. -/
inductive SyntaxKind where
  | EndOfFileToken
  | SemicolonToken
  | CommaToken
  | other (code : Nat)
deriving DecidableEq

/-- A parameter declaration as seen through the parser's accessors:
`getName()`, `getTypeNode()?.getText()`, `getInitializer()?.getText()`. -/
structure ParamDecl where
  name : String
  typeNode : Option String := none
  initializer : Option String := none
deriving DecidableEq

/-- The `{name, type?, default?}` record the engine builds per parameter. -/
structure ParamInfo where
  name : String
  type : Option String := none
  dflt : Option String := none
deriving DecidableEq

/-- Result of `getReturnType()`: the checker-computed return type
(its rendered text and whether it is the `void` type). -/
structure TypeInfo where
  text : String
  isVoid : Bool
deriving DecidableEq

/-- Result of `getReturnTypeNode()`: the explicit return type annotation,
when the declaration carries one.  The engine never calls this accessor;
it is part of the parser surface and is needed to state the spec's
"explicitly annotated" condition. -/
structure RetTypeNode where
  text : String
  isVoidType : Bool
deriving DecidableEq

/-- An initializer expression as seen through the parser's literal guards
and `getText()`. -/
structure InitInfo where
  text : String
  isStringLiteral : Bool := false
  isNumericLiteral : Bool := false
  isTrueLiteral : Bool := false
  isFalseLiteral : Bool := false
deriving DecidableEq

/-- Answers of the `ts-morph` query surface for one syntax node.  Each field
corresponds to one accessor or type guard the engine calls.  `isNameable` /
`isNameableNode` (and `isJSDocable` / `isJSDocableNode`) are recorded
separately because the first copy of the engine calls the former guard and
the second copy the latter. -/
structure NodeInfo where
  kind : SyntaxKind
  kindName : String
  startLine : Nat
  endLine : Nat
  text : String := ""
  isNameable : Bool := false
  isNameableNode : Bool := false
  getName : Option String := none
  isIdentifier : Bool := false
  isJSDocable : Bool := false
  isJSDocableNode : Bool := false
  jsDocs : List String := []
  isClassDeclaration : Bool := false
  extendsClause : Option String := none
  implementsClauses : List String := []
  isFunctionDeclaration : Bool := false
  isMethodDeclaration : Bool := false
  isConstructorDeclaration : Bool := false
  parameters : List ParamDecl := []
  isSignaturedDeclaration : Bool := false
  returnType : Option TypeInfo := none
  returnTypeNode : Option RetTypeNode := none
  isInterfaceDeclaration : Bool := false
  extendsNodes : List String := []
  isVariableDeclaration : Bool := false
  typeNode : Option String := none
  initializer : Option InitInfo := none
  isPropertyDeclaration : Bool := false
  hasPrivateModifier : Bool := false
  hasProtectedModifier : Bool := false
  hasPublicModifier : Bool := false
  isStatic : Bool := false
  isReadonly : Bool := false
deriving DecidableEq

/-- A parser syntax node: its query answers plus its children
(`getChildren()`), in source order. -/
inductive TSNode where
  | mk (info : NodeInfo) (children : List TSNode)

def TSNode.info : TSNode → NodeInfo
  | .mk i _ => i

def TSNode.children : TSNode → List TSNode
  | .mk _ c => c

/-- A parsed source file: `getFilePath()`, `getEndLineNumber()`, and
`getStatements()`. -/
structure SFile where
  filePath : String
  endLine : Nat
  statements : List TSNode

/-- JSON-compatible attribute values used by the engine. -/
inductive AttrVal where
  | str (s : String)
  | bool (b : Bool)
  | strList (l : List String)
  | params (l : List ParamInfo)
deriving DecidableEq

/-- The scalar fields of an output `ASTNode` (interface ASTNode, ast_ts.ts
lines 14-23).  Optional fields are absent (`none`) unless the engine set
them. -/
structure ANodeData where
  nodeType : String
  name : Option String := none
  startLine : Option Nat := none
  endLine : Option Nat := none
  docComment : Option String := none
  attributes : Option (List (String × AttrVal)) := none
deriving DecidableEq

/-- An output AST node: its scalar fields plus the optional `children`
list (absent when the engine never attached one). -/
inductive ASTNode where
  | mk (data : ANodeData) (children : Option (List ASTNode))

def ASTNode.data : ASTNode → ANodeData
  | .mk d _ => d

def ASTNode.children : ASTNode → Option (List ASTNode)
  | .mk _ c => c

def ASTNode.nodeType (a : ASTNode) : String := a.data.nodeType

def ASTNode.attributes (a : ASTNode) : Option (List (String × AttrVal)) :=
  a.data.attributes

/-- `parentASTNode.children.push(astNode)`, creating the array when the
field is absent (processNode lines 94-98). -/
def ASTNode.pushChild : ASTNode → ASTNode → ASTNode
  | .mk d ch, c => .mk d (some ((ch.getD []) ++ [c]))

/-- A directory entry as returned by `fs.promises.readdir(..,
{withFileTypes: true})`: a file, a directory (with its own entries — the
listing of the whole subtree is modelled as one finite tree), or an entry
that is neither (socket, device, ...). -/
inductive DirEntryT where
  | file (name : String)
  | dir (name : String) (entries : List DirEntryT)
  | special (name : String)

/-- File-system and parser oracles.  `access` is the success of
`fs.promises.access` (first copy); `existsSync` is `fs.existsSync`
(second copy); `statIsDirectory` is `fs.statSync(p).isDirectory()`;
`readTree` is the recursive directory listing rooted at a path (an
`Except.error` models the rejection of `readdir` at that root);
`parse` is `project.addSourceFileAtPath` plus tree construction (an
`Except.error` models a thrown parser/read failure). -/
structure FS where
  access : String → Bool
  existsSync : String → Bool
  statIsDirectory : String → Bool
  readTree : String → Except String (List DirEntryT)
  parse : String → Except String SFile

/-- The result-or-error envelope for one file: an AST or `{error: string}`. -/
inductive FileResult where
  | ok (node : ASTNode)
  | err (error : String)

/-- The two shapes `parseDirectory` can return: the top-level
`{error: string}` envelope (the whole call failed), or an object mapping
file paths to per-file envelopes. -/
inductive DirResult where
  | envelope (error : String)
  | mapping (entries : List (String × FileResult))

/-- JS object assignment `results[key] = value`: overwrite in place if the
key is present (keeping its insertion position), append otherwise. -/
def setKey (m : List (String × FileResult)) (k : String) (v : FileResult) :
    List (String × FileResult) :=
  if m.any (fun p => p.1 == k) then
    m.map (fun p => if p.1 == k then (k, v) else p)
  else m ++ [(k, v)]

/-- `path.basename`: the last `/`-separated component. -/
def basename (p : String) : String :=
  match (p.splitOn "/").reverse with
  | [] => p
  | x :: _ => x

/-- `path.join(a, b)` for a simple relative component. -/
def pathJoin (a b : String) : String := a ++ "/" ++ b

/-- `path.extname`: the suffix from the last dot, empty for names without a
dot or for dotfiles such as `.gitignore`. -/
def extname (name : String) : String :=
  match name.splitOn "." with
  | [] => ""
  | [_] => ""
  | "" :: [_] => ""
  | parts => "." ++ (parts.getLast?).getD ""
  -- the last branch is reached only for names with a real extension

/-- The three noise kinds dropped by the normalizer (shouldSkipNode,
lines 111-115; identical in both copies). -/
def skipKinds : List SyntaxKind :=
  [SyntaxKind.EndOfFileToken, SyntaxKind.SemicolonToken, SyntaxKind.CommaToken]

/-- shouldSkipNode (lines 109-118; identical in both copies). -/
def shouldSkipNode (n : TSNode) : Bool :=
  skipKinds.contains n.info.kind

/-- The per-parameter record built inside getNodeAttributes
(lines 209-227): `{name}`, plus `type` when a type annotation is present
and `default` when a default value is present. -/
def mkParamInfo (p : ParamDecl) : ParamInfo :=
  { name := p.name, type := p.typeNode, dflt := p.initializer }

/-- Class-declaration block of getNodeAttributes (lines 191-202). -/
def classAttrs (i : NodeInfo) : List (String × AttrVal) :=
  if i.isClassDeclaration then
    (match i.extendsClause with
     | some e => [("extends", AttrVal.str e)]
     | none => []) ++
    (if i.implementsClauses.length > 0 then
       [("implements", AttrVal.strList i.implementsClauses)]
     else [])
  else []

/-- Function/method/constructor block of getNodeAttributes (lines 205-237).
Note: the code calls `getReturnType()` — the checker-computed type — and
keys on it not being the void type; it never consults the explicit
annotation `getReturnTypeNode()`. -/
def functionAttrs (i : NodeInfo) : List (String × AttrVal) :=
  if i.isFunctionDeclaration || i.isMethodDeclaration || i.isConstructorDeclaration then
    (if i.parameters.length > 0 then
       [("parameters", AttrVal.params (i.parameters.map mkParamInfo))]
     else []) ++
    (if i.isSignaturedDeclaration then
       (match i.returnType with
        | some rt => if !rt.isVoid then [("returnType", AttrVal.str rt.text)] else []
        | none => [])
     else [])
  else []

/-- Interface-declaration block of getNodeAttributes (lines 240-245). -/
def interfaceAttrs (i : NodeInfo) : List (String × AttrVal) :=
  if i.isInterfaceDeclaration then
    (if i.extendsNodes.length > 0 then
       [("extends", AttrVal.strList i.extendsNodes)]
     else [])
  else []

/-- The code's "simple literal" test on an initializer (lines 260-263). -/
def isSimpleLiteral (init : InitInfo) : Bool :=
  init.isStringLiteral || init.isNumericLiteral || init.isTrueLiteral || init.isFalseLiteral

/-- Variable-declaration block of getNodeAttributes (lines 248-267). -/
def variableAttrs (i : NodeInfo) : List (String × AttrVal) :=
  if i.isVariableDeclaration then
    (match i.typeNode with
     | some t => [("type", AttrVal.str t)]
     | none => []) ++
    (match i.initializer with
     | some init =>
         [("hasInitializer", AttrVal.bool true)] ++
         (if isSimpleLiteral init then [("initializerValue", AttrVal.str init.text)] else [])
     | none => [])
  else []

/-- Property-declaration block of getNodeAttributes (lines 270-291). -/
def propertyAttrs (i : NodeInfo) : List (String × AttrVal) :=
  if i.isPropertyDeclaration then
    (match i.typeNode with
     | some t => [("type", AttrVal.str t)]
     | none => []) ++
    (if i.hasPrivateModifier then [("visibility", AttrVal.str "private")]
     else if i.hasProtectedModifier then [("visibility", AttrVal.str "protected")]
     else if i.hasPublicModifier then [("visibility", AttrVal.str "public")]
     else []) ++
    (if i.isStatic then [("static", AttrVal.bool true)] else []) ++
    (if i.isReadonly then [("readonly", AttrVal.bool true)] else [])
  else []

/-- getNodeAttributes (lines 187-294; identical in both copies): the
kind-guarded blocks, in program order.  The record is modelled as the list
of key/value assignments; the guards are mutually exclusive on real parser
nodes, so no key is assigned twice. -/
def getNodeAttributes (i : NodeInfo) : List (String × AttrVal) :=
  classAttrs i ++ functionAttrs i ++ interfaceAttrs i ++ variableAttrs i ++ propertyAttrs i

/-! ## First copy of the engine (ast_ts.ts lines 1-420) -/

namespace V1

/-- getNodeName (lines 150-159): the first copy probes `Node.isNameable`.
A nameable node answers with `getName()` (which may itself be undefined);
a bare identifier answers with its own text. -/
def getNodeName (i : NodeInfo) : Option String :=
  if i.isNameable then i.getName
  else if i.isIdentifier then some i.text
  else none

/-- getNodeDocComment (lines 166-180): the first copy probes
`Node.isJSDocable`.  All block descriptions are newline-joined and trimmed
(the `filter` on undefined descriptions is the identity, since
`getDescription()` returns a string). -/
def getNodeDocComment (i : NodeInfo) : Option String :=
  if i.isJSDocable then
    if i.jsDocs.length > 0 then
      some (String.trim (String.intercalate "\n" i.jsDocs))
    else none
  else none

/-- addNodeSpecificDetails (lines 125-143): attach `name`, `docComment` and
`attributes` when present.  JS truthiness: an undefined or empty string is
not attached; an attributes record is attached only when it has a key. -/
def addNodeSpecificDetails (i : NodeInfo) (astNode : ANodeData) : ANodeData :=
  let astNode :=
    match getNodeName i with
    | some name => if name ≠ "" then { astNode with name := some name } else astNode
    | none => astNode
  let astNode :=
    match getNodeDocComment i with
    | some d => if d ≠ "" then { astNode with docComment := some d } else astNode
    | none => astNode
  let attributes := getNodeAttributes i
  if attributes.length > 0 then { astNode with attributes := some attributes } else astNode

/-- The `{nodeType, startLine, endLine}` literal of processNode
(lines 85-89). -/
def initialData (i : NodeInfo) : ANodeData :=
  { nodeType := i.kindName, startLine := some i.startLine, endLine := some i.endLine }

mutual
/-- processNode (lines 78-102): skip noise nodes together with their
subtrees; otherwise build the simplified node, let the recursion over
`getChildren()` fill its `children`, and push it onto the parent.  (The JS
code pushes first and then mutates the pushed reference; building the
finished node before pushing is the same function.)  `processList` is the
`for (const child of node.getChildren())` loop shared by processNode
(via processNodeChildren, lines 301-306) and createNodeFromSourceFile. -/
def processNode : TSNode → ASTNode → ASTNode
  | n@(.mk i ch), parent =>
    if shouldSkipNode n then parent
    else
      let astNode : ASTNode := .mk (addNodeSpecificDetails i (initialData i)) none
      parent.pushChild (processList ch astNode)

def processList : List TSNode → ASTNode → ASTNode
  | [], astNode => astNode
  | c :: cs, astNode => processList cs (processNode c astNode)
end

/-- The node processNode pushes for a non-skipped parser node: the
simplified node with its processed children. -/
def buildASTNode : TSNode → ASTNode
  | .mk i ch => processList ch (.mk (addNodeSpecificDetails i (initialData i)) none)

/-- createNodeFromSourceFile (lines 56-71): the root node, with
`children` initialized to the empty array, then every top-level statement
processed into it. -/
def createNodeFromSourceFile (sf : SFile) : ASTNode :=
  let fileNode : ASTNode :=
    .mk { nodeType := "SourceFile", name := some (basename sf.filePath),
          startLine := some 1, endLine := some sf.endLine } (some [])
  processList sf.statements fileNode

/-- parseTypeScriptFile (lines 30-49): existence check via
`fs.promises.access`, then the parser; a missing file or a thrown parser
failure is converted into an error envelope. -/
def parseTypeScriptFile (fs : FS) (filePath : String) : FileResult :=
  if !fs.access filePath then .err ("File not found: " ++ filePath)
  else
    match fs.parse filePath with
    | .ok sourceFile => .ok (createNodeFromSourceFile sourceFile)
    | .error e => .err ("Failed to parse " ++ filePath ++ ": " ++ e)

/-- EXCLUDED_DIRS (lines 311-322). -/
def EXCLUDED_DIRS : List String :=
  ["node_modules", ".git", "dist", "build", ".venv", "venv", "coverage",
   ".next", ".cache", "__pycache__"]

/-- The recursive `traverse` of findFilesRecursively (lines 333-349):
descend into non-excluded directories, collect files whose name ends with a
configured extension, in entry order. -/
def traverse (extensions : List String) : List DirEntryT → String → List String
  | [], _ => []
  | .dir name entries :: rest, currentPath =>
      (if EXCLUDED_DIRS.contains name then []
       else traverse extensions entries (pathJoin currentPath name)) ++
      traverse extensions rest currentPath
  | .file name :: rest, currentPath =>
      (if extensions.any (fun ext => name.endsWith ext) then [pathJoin currentPath name]
       else []) ++
      traverse extensions rest currentPath
  | .special _ :: rest, currentPath => traverse extensions rest currentPath

/-- findFilesRecursively (lines 330-353): a failed `readdir` of the root
rejects the whole enumeration (per-subdirectory failures are not modelled,
as the claims do not concern them). -/
def findFilesRecursively (fs : FS) (dirPath : String) (extensions : List String) :
    Except String (List String) :=
  match fs.readTree dirPath with
  | .ok entries => .ok (traverse extensions entries dirPath)
  | .error e => .error e

/-- parseDirectory, first copy (lines 361-389): enumerate, then assign
`results[file] = await parseTypeScriptFile(file)` for every file.  The
chunked concurrency (limit 5) affects only the insertion order of keys
within a chunk, never the key set or any value, so the assignments are
modelled in enumeration order.  An enumeration failure is caught and
returned as a mapping with the directory path as its only key. -/
def parseDirectory (fs : FS) (dirPath : String) (extensions : List String) : DirResult :=
  match findFilesRecursively fs dirPath extensions with
  | .ok files =>
      .mapping (files.foldl (fun results file => setKey results file (parseTypeScriptFile fs file)) [])
  | .error e =>
      .mapping [(dirPath, .err ("Failed to parse directory " ++ dirPath ++ ": " ++ e))]

end V1

/-! ## Second copy of the engine (ast_ts.ts lines 420-842)

Identical to the first copy except where noted: the existence check of
`parseTypeScriptFile` is `fs.existsSync`; `getNodeName` probes
`Node.isNameableNode` and `getNodeDocComment` probes
`Node.isJSDocableNode`; `parseDirectory` validates the directory up front,
uses a hard-coded exclusion list, matches extensions with `path.extname`,
and parses all files in one shared project. -/

namespace V2

/-- getNodeName, second copy (lines 567-576): probes `Node.isNameableNode`
instead of `Node.isNameable`. -/
def getNodeName (i : NodeInfo) : Option String :=
  if i.isNameableNode then i.getName
  else if i.isIdentifier then some i.text
  else none

/-- getNodeDocComment, second copy (lines 583-597): probes
`Node.isJSDocableNode` instead of `Node.isJSDocable`. -/
def getNodeDocComment (i : NodeInfo) : Option String :=
  if i.isJSDocableNode then
    if i.jsDocs.length > 0 then
      some (String.trim (String.intercalate "\n" i.jsDocs))
    else none
  else none

/-- addNodeSpecificDetails, second copy (lines 542-560). -/
def addNodeSpecificDetails (i : NodeInfo) (astNode : ANodeData) : ANodeData :=
  let astNode :=
    match getNodeName i with
    | some name => if name ≠ "" then { astNode with name := some name } else astNode
    | none => astNode
  let astNode :=
    match getNodeDocComment i with
    | some d => if d ≠ "" then { astNode with docComment := some d } else astNode
    | none => astNode
  let attributes := getNodeAttributes i
  if attributes.length > 0 then { astNode with attributes := some attributes } else astNode

/-- The `{nodeType, startLine, endLine}` literal of processNode, second
copy (lines 502-506). -/
def initialData (i : NodeInfo) : ANodeData :=
  { nodeType := i.kindName, startLine := some i.startLine, endLine := some i.endLine }

mutual
/-- processNode, second copy (lines 495-519). -/
def processNode : TSNode → ASTNode → ASTNode
  | n@(.mk i ch), parent =>
    if shouldSkipNode n then parent
    else
      let astNode : ASTNode := .mk (addNodeSpecificDetails i (initialData i)) none
      parent.pushChild (processList ch astNode)

def processList : List TSNode → ASTNode → ASTNode
  | [], astNode => astNode
  | c :: cs, astNode => processList cs (processNode c astNode)
end

/-- The node processNode pushes for a non-skipped parser node, second copy. -/
def buildASTNode : TSNode → ASTNode
  | .mk i ch => processList ch (.mk (addNodeSpecificDetails i (initialData i)) none)

/-- createNodeFromSourceFile, second copy (lines 473-488). -/
def createNodeFromSourceFile (sf : SFile) : ASTNode :=
  let fileNode : ASTNode :=
    .mk { nodeType := "SourceFile", name := some (basename sf.filePath),
          startLine := some 1, endLine := some sf.endLine } (some [])
  processList sf.statements fileNode

/-- parseTypeScriptFile, second copy (lines 449-466): synchronous
existence check via `fs.existsSync`, otherwise as in the first copy. -/
def parseTypeScriptFile (fs : FS) (filePath : String) : FileResult :=
  if !fs.existsSync filePath then .err ("File not found: " ++ filePath)
  else
    match fs.parse filePath with
    | .ok sourceFile => .ok (createNodeFromSourceFile sourceFile)
    | .error e => .err ("Failed to parse " ++ filePath ++ ": " ++ e)

/-- The `traverse` of findFilesRecursively, second copy (lines 776-796):
hard-coded exclusion list and `path.extname`-based extension matching;
a failed `readdir` of a directory is caught and logged, contributing no
files. -/
def traverse (extensions : List String) : List DirEntryT → String → List String
  | [], _ => []
  | .dir name entries :: rest, currentPath =>
      (if name ≠ "node_modules" && name ≠ ".git" && name ≠ "dist" && name ≠ ".venv" then
         traverse extensions entries (pathJoin currentPath name)
       else []) ++
      traverse extensions rest currentPath
  | .file name :: rest, currentPath =>
      (if extensions.contains (extname name) then [pathJoin currentPath name]
       else []) ++
      traverse extensions rest currentPath
  | .special _ :: rest, currentPath => traverse extensions rest currentPath

/-- findFilesRecursively, second copy (lines 773-800): a failed `readdir`
at the root is caught inside `traverse` (console.error) and yields an
empty enumeration rather than a failure. -/
def findFilesRecursively (fs : FS) (dirPath : String) (extensions : List String) :
    List String :=
  match fs.readTree dirPath with
  | .ok entries => traverse extensions entries dirPath
  | .error _ => []

/-- The add-files loop of parseDirectory, second copy (lines 746-752):
each file is added to the shared project; a thrown failure is recorded as
that file's error entry (the template `${error}` stringifies the thrown
value; the oracle supplies the resulting text).  Returns the error entries
and the successfully added source files. -/
def addFilesLoop (fs : FS) :
    List String → List (String × FileResult) × List SFile →
    List (String × FileResult) × List SFile
  | [], acc => acc
  | file :: rest, acc =>
      match fs.parse file with
      | .ok sf => addFilesLoop fs rest (acc.1, acc.2 ++ [sf])
      | .error e =>
          addFilesLoop fs rest
            (setKey acc.1 file (.err ("Failed to add file to project: " ++ e)), acc.2)

/-- parseDirectory, second copy (lines 731-768): validate the directory up
front and return the top-level `{error: string}` envelope if it is missing
or not a directory; otherwise enumerate, add every file to one shared
project, then parse each project file into the result mapping (keyed by
`sourceFile.getFilePath()`, modelled as the enumerated path).
`createNodeFromSourceFile` is total in the model, so its per-file catch
(lines 759-761) has no error branch. -/
def parseDirectory (fs : FS) (dirPath : String) (extensions : List String) : DirResult :=
  if !fs.existsSync dirPath || !fs.statIsDirectory dirPath then
    .envelope ("Directory not found: " ++ dirPath)
  else
    let files := findFilesRecursively fs dirPath extensions
    let added := addFilesLoop fs files ([], [])
    .mapping (added.2.foldl
      (fun results sf => setKey results sf.filePath (.ok (createNodeFromSourceFile sf)))
      added.1)

end V2

/-! ## Checkers and spec-side predicates -/

/-- `needle` occurs contiguously inside `hay`. -/
def strContains (hay needle : String) : Prop :=
  ∃ pre post : String, hay = pre ++ needle ++ post

mutual
/-- Spans are properly nested in the parser's tree: `spanNestedB` checks
one node's subtree, `spanNestedListB s e l` additionally checks that every
node in `l` lies within the bounds `s`..`e`.  This is the "underlying
parser reports child spans inside parent spans" assumption. -/
def spanNestedB : TSNode → Bool
  | .mk i ch => spanNestedListB i.startLine i.endLine ch

def spanNestedListB : Nat → Nat → List TSNode → Bool
  | _, _, [] => true
  | s, e, c :: cs =>
      (decide (s ≤ c.info.startLine) && decide (c.info.endLine ≤ e) && spanNestedB c) &&
      spanNestedListB s e cs
end

mutual
/-- Every output node carries numeric bounds; `containedListB s e l`
checks that every node in `l` lies within `s`..`e` and recursively bounds
its own children. -/
def containedB : Nat → Nat → ASTNode → Bool
  | s, e, .mk d none =>
      (match d.startLine, d.endLine with
       | some s2, some e2 => decide (s ≤ s2) && decide (e2 ≤ e)
       | _, _ => false)
  | s, e, .mk d (some ch) =>
      (match d.startLine, d.endLine with
       | some s2, some e2 => decide (s ≤ s2) && decide (e2 ≤ e) && containedListB s2 e2 ch
       | _, _ => false)

def containedListB : Nat → Nat → List ASTNode → Bool
  | _, _, [] => true
  | s, e, a :: rest => containedB s e a && containedListB s e rest
end

/-- Span containment for a whole output tree, child bounds checked against
each parent's bounds starting from the root's. -/
def spansContained (root : ASTNode) : Bool :=
  match root with
  | .mk d ch =>
      match d.startLine, d.endLine with
      | some s, some e => containedListB s e (ch.getD [])
      | _, _ => false

/-- The fixed attribute-key vocabulary of spec §4.1, per node kind. -/
def vocab : String → List String
  | "ClassDeclaration" => ["extends", "implements"]
  | "FunctionDeclaration" => ["parameters", "returnType"]
  | "MethodDeclaration" => ["parameters", "returnType"]
  | "Constructor" => ["parameters", "returnType"]
  | "InterfaceDeclaration" => ["extends"]
  | "VariableDeclaration" => ["type", "hasInitializer", "initializerValue"]
  | "PropertyDeclaration" => ["type", "visibility", "static", "readonly"]
  | _ => []

/-- A parser node's type guards answer consistently with its kind name:
each declaration guard holds exactly on the kind it tests for (as the real
`ts-morph` guards do). -/
def wellTaggedInfo (i : NodeInfo) : Bool :=
  (i.isClassDeclaration == (i.kindName == "ClassDeclaration")) &&
  (i.isFunctionDeclaration == (i.kindName == "FunctionDeclaration")) &&
  (i.isMethodDeclaration == (i.kindName == "MethodDeclaration")) &&
  (i.isConstructorDeclaration == (i.kindName == "Constructor")) &&
  (i.isInterfaceDeclaration == (i.kindName == "InterfaceDeclaration")) &&
  (i.isVariableDeclaration == (i.kindName == "VariableDeclaration")) &&
  (i.isPropertyDeclaration == (i.kindName == "PropertyDeclaration"))

mutual
/-- `wellTaggedInfo` holds everywhere in a parser tree / list of trees. -/
def wellTaggedB : TSNode → Bool
  | .mk i ch => wellTaggedInfo i && wellTaggedListB ch

def wellTaggedListB : List TSNode → Bool
  | [] => true
  | c :: rest => wellTaggedB c && wellTaggedListB rest
end

mutual
/-- Every output node draws its attribute keys from the §4.1 vocabulary of
its own kind, recursively. -/
def attrKeysOKB : ASTNode → Bool
  | .mk d none =>
      (d.attributes.getD []).all (fun kv => (vocab d.nodeType).contains kv.1)
  | .mk d (some ch) =>
      (d.attributes.getD []).all (fun kv => (vocab d.nodeType).contains kv.1) &&
      attrKeysOKListB ch

def attrKeysOKListB : List ASTNode → Bool
  | [] => true
  | a :: rest => attrKeysOKB a && attrKeysOKListB rest
end

mutual
/-- No output node carries `attributes := some []` or
`children := some []`, recursively. -/
def noEmptyFieldsB : ASTNode → Bool
  | .mk d none => !(d.attributes == some ([] : List (String × AttrVal)))
  | .mk _ (some []) => false
  | .mk d (some (k :: ks)) =>
      (!(d.attributes == some ([] : List (String × AttrVal)))) &&
      noEmptyFieldsListB (k :: ks)

def noEmptyFieldsListB : List ASTNode → Bool
  | [] => true
  | a :: rest => noEmptyFieldsB a && noEmptyFieldsListB rest
end


/-- The two `Node.isNameable` / `Node.isNameableNode` and `Node.isJSDocable`
/ `Node.isJSDocableNode` guard spellings used by the two engine copies
denote the same `ts-morph` capability on this node. -/
def agreeInfo (i : NodeInfo) : Bool :=
  (i.isNameable == i.isNameableNode) && (i.isJSDocable == i.isJSDocableNode)

mutual
/-- `agreeInfo` holds everywhere in a parser tree / list of trees. -/
def agreeB : TSNode → Bool
  | .mk i ch => agreeInfo i && agreeListB ch

def agreeListB : List TSNode → Bool
  | [] => true
  | c :: rest => agreeB c && agreeListB rest
end

/-- Claim C1 in the spec's words, at one function/method/constructor node:
the attributes contain a `returnType` key exactly when the declaration
carries an explicit return type annotation (`getReturnTypeNode()`) whose
type is not the void type, and the value is that annotation's source
text. -/
def returnTypeSpecClaimAt (i : NodeInfo) : Prop :=
  ((∃ v, (getNodeAttributes i).lookup "returnType" = some v) ↔
    (∃ tn, i.returnTypeNode = some tn ∧ tn.isVoidType = false)) ∧
  (∀ tn, i.returnTypeNode = some tn → tn.isVoidType = false →
    (getNodeAttributes i).lookup "returnType" = some (AttrVal.str tn.text))

/-- A function declaration with no explicit return type annotation whose
checker-computed return type is `number` — e.g.
`function f() { return 1; }`. -/
def c1Info : NodeInfo :=
  { kind := .other 262, kindName := "FunctionDeclaration", startLine := 1, endLine := 1,
    isFunctionDeclaration := true, isSignaturedDeclaration := true,
    returnType := some { text := "number", isVoid := false }, returnTypeNode := none }

/-- Claim C3 in the spec's words, at one path: if the path does not exist
or is not a directory, `parseDirectory` (both copies) returns the distinct
top-level error envelope. -/
def dirValidationSpecClaim (fs : FS) (p : String) (exts : List String) : Prop :=
  (fs.existsSync p = false ∨ fs.statIsDirectory p = false) →
  (∃ msg, V1.parseDirectory fs p exts = .envelope msg) ∧
  (∃ msg, V2.parseDirectory fs p exts = .envelope msg)

/-- A file system in which no path exists: every existence probe fails and
every `readdir` rejects. -/
def fsMissing : FS :=
  { access := fun _ => false, existsSync := fun _ => false,
    statIsDirectory := fun _ => false,
    readTree := fun _ => .error "ENOENT: no such file or directory",
    parse := fun _ => .error "ENOENT: no such file or directory" }

/-- The default extension list of both parseDirectory copies. -/
def defaultExtensions : List String := [".ts", ".tsx"]

/-- The normalized nodes a run of the child loop appends to its parent:
one node per non-skipped child, in order (first copy). -/
def V1.keptList (l : List TSNode) : List ASTNode :=
  (l.filter (fun c => !shouldSkipNode c)).map V1.buildASTNode

/-- The normalized nodes a run of the child loop appends to its parent:
one node per non-skipped child, in order (second copy). -/
def V2.keptList (l : List TSNode) : List ASTNode :=
  (l.filter (fun c => !shouldSkipNode c)).map V2.buildASTNode

/-- A semicolon token node, as the parser reports it for a file such as
`;;`. -/
def semicolonInfo : NodeInfo :=
  { kind := .SemicolonToken, kindName := "SemicolonToken", startLine := 1, endLine := 1 }

/-- A class-declaration node `class Foo extends Base {}` spanning lines
2-4, with consistent guards, as the parser reports it. -/
def classInfo : NodeInfo :=
  { kind := .other 263, kindName := "ClassDeclaration", startLine := 2, endLine := 4,
    isNameable := true, isNameableNode := true, getName := some "Foo",
    isJSDocable := true, isJSDocableNode := true,
    isClassDeclaration := true, extendsClause := some "Base" }

/-- A one-statement source file containing `classInfo`. -/
def sampleFile : SFile :=
  { filePath := "src/sample.ts", endLine := 5,
    statements := [TSNode.mk classInfo []] }

/-- A file system on which every path exists and parses to `sampleFile`. -/
def fsSample : FS :=
  { access := fun _ => true, existsSync := fun _ => true,
    statIsDirectory := fun _ => false,
    readTree := fun _ => .error "ENOTDIR: not a directory",
    parse := fun _ => .ok sampleFile }

/-- A file system on which every path exists but the parser throws. -/
def fsParseFail : FS :=
  { access := fun _ => true, existsSync := fun _ => true,
    statIsDirectory := fun _ => false,
    readTree := fun _ => .error "ENOTDIR: not a directory",
    parse := fun _ => .error "Unexpected token" }

/-- A file system whose root directory `proj` holds `a.ts`, `b.txt` and an
excluded `node_modules` directory containing `c.ts`; every path exists and
parses to `sampleFile`. -/
def fsDir : FS :=
  { access := fun _ => true, existsSync := fun _ => true,
    statIsDirectory := fun _ => true,
    readTree := fun _ =>
      .ok [DirEntryT.file "a.ts", DirEntryT.file "b.txt",
           DirEntryT.dir "node_modules" [DirEntryT.file "c.ts"]],
    parse := fun _ => .ok sampleFile }

/-! ## Association-list helper lemmas -/

theorem lookup_append_of_none {β : Type} {l₁ l₂ : List (String × β)} {k : String}
    (h : l₁.lookup k = none) : (l₁ ++ l₂).lookup k = l₂.lookup k := by
  induction l₁ with
  | nil => simp
  | cons kv rest ih =>
      obtain ⟨k1, v1⟩ := kv
      rw [List.lookup_cons] at h
      rw [List.cons_append, List.lookup_cons]
      cases hk : (k == k1) with
      | true => rw [hk] at h; exact Option.noConfusion h
      | false => rw [hk] at h; exact ih h

theorem lookup_append_of_some {β : Type} {l₁ l₂ : List (String × β)} {k : String} {v : β}
    (h : l₁.lookup k = some v) : (l₁ ++ l₂).lookup k = some v := by
  induction l₁ with
  | nil => simp at h
  | cons kv rest ih =>
      obtain ⟨k1, v1⟩ := kv
      rw [List.lookup_cons] at h
      rw [List.cons_append, List.lookup_cons]
      cases hk : (k == k1) with
      | true => rw [hk] at h; exact h
      | false => rw [hk] at h; exact ih h

theorem lookup_eq_none_of_keys {β : Type} {l : List (String × β)} {k : String}
    (h : ∀ kv ∈ l, kv.1 ≠ k) : l.lookup k = none := by
  induction l with
  | nil => simp
  | cons kv rest ih =>
      obtain ⟨k1, v1⟩ := kv
      rw [List.lookup_cons]
      have hne : k1 ≠ k := h (k1, v1) (by simp)
      have hk : (k == k1) = false := beq_eq_false_iff_ne.mpr (Ne.symm hne)
      rw [hk]
      exact ih (fun p hp => h p (List.mem_cons_of_mem _ hp))

theorem lookup_eq_none_of_all_keys {β : Type} {l : List (String × β)}
    {keys : List String} {k : String}
    (hall : l.all (fun kv => keys.contains kv.1) = true) (hk : k ∉ keys) :
    l.lookup k = none := by
  apply lookup_eq_none_of_keys
  intro kv hkv heq
  have hc := List.all_eq_true.mp hall kv hkv
  rw [heq] at hc
  exact hk (List.elem_iff.mp hc)

/-! ## Key inventories of the attribute blocks -/

theorem classAttrs_keys (i : NodeInfo) :
    (classAttrs i).all (fun kv => ["extends", "implements"].contains kv.1) = true := by
  unfold classAttrs
  repeat' split
  all_goals simp_all

theorem functionAttrs_keys (i : NodeInfo) :
    (functionAttrs i).all (fun kv => ["parameters", "returnType"].contains kv.1) = true := by
  unfold functionAttrs
  repeat' split
  all_goals simp_all

theorem interfaceAttrs_keys (i : NodeInfo) :
    (interfaceAttrs i).all (fun kv => ["extends"].contains kv.1) = true := by
  unfold interfaceAttrs
  repeat' split
  all_goals simp_all

theorem variableAttrs_keys (i : NodeInfo) :
    (variableAttrs i).all
      (fun kv => ["type", "hasInitializer", "initializerValue"].contains kv.1) = true := by
  unfold variableAttrs
  repeat' split
  all_goals simp_all

theorem propertyAttrs_keys (i : NodeInfo) :
    (propertyAttrs i).all
      (fun kv => ["type", "visibility", "static", "readonly"].contains kv.1) = true := by
  unfold propertyAttrs
  repeat' split
  all_goals simp_all

/-! ## Lookup characterization inside getNodeAttributes -/

theorem lookup_getNodeAttributes_past_class (i : NodeInfo) (k : String)
    (h1 : k ≠ "extends") (h2 : k ≠ "implements") :
    (getNodeAttributes i).lookup k =
      (functionAttrs i ++ (interfaceAttrs i ++ (variableAttrs i ++ propertyAttrs i))).lookup k := by
  unfold getNodeAttributes
  rw [List.append_assoc, List.append_assoc, List.append_assoc]
  exact lookup_append_of_none
    (lookup_eq_none_of_all_keys (classAttrs_keys i) (by simp [h1, h2]))

theorem lookup_getNodeAttributes_past_function (i : NodeInfo) (k : String)
    (h1 : k ≠ "extends") (h2 : k ≠ "implements")
    (h3 : k ≠ "parameters") (h4 : k ≠ "returnType") :
    (getNodeAttributes i).lookup k =
      (interfaceAttrs i ++ (variableAttrs i ++ propertyAttrs i)).lookup k := by
  rw [lookup_getNodeAttributes_past_class i k h1 h2]
  exact lookup_append_of_none
    (lookup_eq_none_of_all_keys (functionAttrs_keys i) (by simp [h3, h4]))

theorem lookup_getNodeAttributes_in_variable (i : NodeInfo) (k : String)
    (h1 : k ≠ "extends") (h2 : k ≠ "implements")
    (h3 : k ≠ "parameters") (h4 : k ≠ "returnType") :
    (getNodeAttributes i).lookup k = (variableAttrs i ++ propertyAttrs i).lookup k := by
  rw [lookup_getNodeAttributes_past_function i k h1 h2 h3 h4]
  exact lookup_append_of_none
    (lookup_eq_none_of_all_keys (interfaceAttrs_keys i) (by simp [h1]))

/-! ## Variable-declaration attribute lookups -/

theorem variableAttrs_lookup_hasInit_none {i : NodeInfo}
    (hvar : i.isVariableDeclaration = true) (hinit : i.initializer = none) :
    (variableAttrs i).lookup "hasInitializer" = none := by
  cases htn : i.typeNode <;>
    simp [variableAttrs, hvar, hinit, htn, List.lookup_cons]

theorem variableAttrs_lookup_initVal_none {i : NodeInfo}
    (hvar : i.isVariableDeclaration = true) (hinit : i.initializer = none) :
    (variableAttrs i).lookup "initializerValue" = none := by
  cases htn : i.typeNode <;>
    simp [variableAttrs, hvar, hinit, htn, List.lookup_cons]

theorem variableAttrs_lookup_hasInit_some {i : NodeInfo} {init : InitInfo}
    (hvar : i.isVariableDeclaration = true) (hinit : i.initializer = some init) :
    (variableAttrs i).lookup "hasInitializer" = some (AttrVal.bool true) := by
  cases htn : i.typeNode <;> cases hsl : isSimpleLiteral init <;>
    simp [variableAttrs, hvar, hinit, htn, hsl, List.lookup_cons]

theorem variableAttrs_lookup_initVal_simple {i : NodeInfo} {init : InitInfo}
    (hvar : i.isVariableDeclaration = true) (hinit : i.initializer = some init)
    (hsl : isSimpleLiteral init = true) :
    (variableAttrs i).lookup "initializerValue" = some (AttrVal.str init.text) := by
  cases htn : i.typeNode <;>
    simp [variableAttrs, hvar, hinit, htn, hsl, List.lookup_cons]

theorem variableAttrs_lookup_initVal_complex {i : NodeInfo} {init : InitInfo}
    (hvar : i.isVariableDeclaration = true) (hinit : i.initializer = some init)
    (hsl : isSimpleLiteral init = false) :
    (variableAttrs i).lookup "initializerValue" = none := by
  cases htn : i.typeNode <;>
    simp [variableAttrs, hvar, hinit, htn, hsl, List.lookup_cons]

/-- C9: For every variable declaration node, the attributes contain
`hasInitializer = true` exactly when an initializer expression is present,
and contain `initializerValue` (the literal's source text) exactly when
that initializer is a string, numeric, or boolean literal — never for any
other initializer expression. -/
theorem c9_variable_initializer_attributes (i : NodeInfo)
    (hvar : i.isVariableDeclaration = true) :
    (i.initializer = none →
       (getNodeAttributes i).lookup "hasInitializer" = none ∧
       (getNodeAttributes i).lookup "initializerValue" = none) ∧
    (∀ init, i.initializer = some init →
       (getNodeAttributes i).lookup "hasInitializer" = some (AttrVal.bool true) ∧
       (isSimpleLiteral init = true →
          (getNodeAttributes i).lookup "initializerValue" = some (AttrVal.str init.text)) ∧
       (isSimpleLiteral init = false →
          (getNodeAttributes i).lookup "initializerValue" = none)) := by
  have hpropHas :=
    lookup_eq_none_of_all_keys (l := propertyAttrs i) (propertyAttrs_keys i)
      (show "hasInitializer" ∉ ["type", "visibility", "static", "readonly"] by decide)
  have hpropVal :=
    lookup_eq_none_of_all_keys (l := propertyAttrs i) (propertyAttrs_keys i)
      (show "initializerValue" ∉ ["type", "visibility", "static", "readonly"] by decide)
  constructor
  · intro hinit
    constructor
    · rw [lookup_getNodeAttributes_in_variable i _ (by decide) (by decide) (by decide) (by decide)]
      rw [lookup_append_of_none (variableAttrs_lookup_hasInit_none hvar hinit)]
      exact hpropHas
    · rw [lookup_getNodeAttributes_in_variable i _ (by decide) (by decide) (by decide) (by decide)]
      rw [lookup_append_of_none (variableAttrs_lookup_initVal_none hvar hinit)]
      exact hpropVal
  · intro init hinit
    refine ⟨?_, ?_, ?_⟩
    · rw [lookup_getNodeAttributes_in_variable i _ (by decide) (by decide) (by decide) (by decide)]
      exact lookup_append_of_some (variableAttrs_lookup_hasInit_some hvar hinit)
    · intro hsl
      rw [lookup_getNodeAttributes_in_variable i _ (by decide) (by decide) (by decide) (by decide)]
      exact lookup_append_of_some (variableAttrs_lookup_initVal_simple hvar hinit hsl)
    · intro hsl
      rw [lookup_getNodeAttributes_in_variable i _ (by decide) (by decide) (by decide) (by decide)]
      rw [lookup_append_of_none (variableAttrs_lookup_initVal_complex hvar hinit hsl)]
      exact hpropVal

/-- Witness for C9 at a concrete variable declaration
`const x: number = 3`. -/
theorem c9_variable_initializer_attributes_witness :
    (getNodeAttributes
        { kind := .other 260, kindName := "VariableDeclaration", startLine := 1, endLine := 1,
          isVariableDeclaration := true, typeNode := some "number",
          initializer := some { text := "3", isNumericLiteral := true } }).lookup
      "initializerValue" = some (AttrVal.str "3") :=
  (((c9_variable_initializer_attributes _ rfl).2
      { text := "3", isNumericLiteral := true } rfl).2.1) rfl

/-! ## Return-type attribute (claim C1) -/

theorem functionAttrs_lookup_returnType_some {i : NodeInfo} {rt : TypeInfo}
    (hfn : (i.isFunctionDeclaration || i.isMethodDeclaration || i.isConstructorDeclaration) = true)
    (hsig : i.isSignaturedDeclaration = true)
    (hrt : i.returnType = some rt) (hvoid : rt.isVoid = false) :
    (functionAttrs i).lookup "returnType" = some (AttrVal.str rt.text) := by
  by_cases hp : i.parameters.length > 0 <;>
    simp [functionAttrs, hfn, hsig, hrt, hvoid, hp, List.lookup_cons]

theorem functionAttrs_lookup_returnType_none {i : NodeInfo}
    (h : i.isSignaturedDeclaration = false ∨ i.returnType = none ∨
         (∃ rt, i.returnType = some rt ∧ rt.isVoid = true)) :
    (functionAttrs i).lookup "returnType" = none := by
  cases hfn : (i.isFunctionDeclaration || i.isMethodDeclaration || i.isConstructorDeclaration) with
  | false => simp [functionAttrs, hfn]
  | true =>
    cases hsig : i.isSignaturedDeclaration with
    | false =>
        by_cases hp : i.parameters.length > 0 <;>
          simp [functionAttrs, hfn, hsig, hp, List.lookup_cons]
    | true =>
        cases hrt : i.returnType with
        | none =>
            by_cases hp : i.parameters.length > 0 <;>
              simp [functionAttrs, hfn, hsig, hrt, hp, List.lookup_cons]
        | some rt =>
            have hvoid : rt.isVoid = true := by
              rcases h with h1 | h1 | ⟨rt2, hrt2, hv2⟩
              · rw [h1] at hsig; exact Bool.noConfusion hsig
              · rw [h1] at hrt; exact Option.noConfusion hrt
              · have he : rt2 = rt := by
                  injection (hrt2.symm.trans hrt)
                rw [← he]; exact hv2
            by_cases hp : i.parameters.length > 0 <;>
              simp [functionAttrs, hfn, hsig, hrt, hvoid, hp, List.lookup_cons]

/-- C1 as written in the spec fails on the code: for
`function f() { return 1; }` — a function declaration with no explicit
return type annotation (`getReturnTypeNode()` is undefined) — the code
keys on the checker-computed `getReturnType()`, which is the non-void type
`number`, and emits `returnType: "number"`; the spec says the key must be
absent without an explicit annotation. -/
theorem c1_counterexample : ¬ returnTypeSpecClaimAt c1Info := by
  intro h
  obtain ⟨hiff, _⟩ := h
  have hkey : (getNodeAttributes c1Info).lookup "returnType" = some (AttrVal.str "number") := by
    decide
  obtain ⟨tn, htn, _⟩ := hiff.mp ⟨AttrVal.str "number", hkey⟩
  exact Option.noConfusion (show (none : Option RetTypeNode) = some tn from htn)

/-- C1 (amended): for every function, method, or constructor declaration
node, the attributes contain a `returnType` key iff the checker-computed
return type (`getReturnType()`) is present and is not the void type —
regardless of whether the declaration carries an explicit annotation —
and the value is that computed type's rendered text. -/
theorem c1_returnType_follows_checker_type (i : NodeInfo)
    (hfn : i.isFunctionDeclaration = true ∨ i.isMethodDeclaration = true ∨
           i.isConstructorDeclaration = true) :
    (∀ rt, i.isSignaturedDeclaration = true → i.returnType = some rt → rt.isVoid = false →
       (getNodeAttributes i).lookup "returnType" = some (AttrVal.str rt.text)) ∧
    ((i.isSignaturedDeclaration = false ∨ i.returnType = none ∨
        (∃ rt, i.returnType = some rt ∧ rt.isVoid = true)) →
       (getNodeAttributes i).lookup "returnType" = none) := by
  have hfnb : (i.isFunctionDeclaration || i.isMethodDeclaration || i.isConstructorDeclaration) = true := by
    rcases hfn with h | h | h <;> simp [h]
  constructor
  · intro rt hsig hrt hvoid
    rw [lookup_getNodeAttributes_past_class i _ (by decide) (by decide)]
    exact lookup_append_of_some (functionAttrs_lookup_returnType_some hfnb hsig hrt hvoid)
  · intro h
    rw [lookup_getNodeAttributes_past_class i _ (by decide) (by decide)]
    rw [lookup_append_of_none (functionAttrs_lookup_returnType_none h)]
    rw [lookup_append_of_none
      (lookup_eq_none_of_all_keys (interfaceAttrs_keys i)
        (show "returnType" ∉ ["extends"] by decide))]
    rw [lookup_append_of_none
      (lookup_eq_none_of_all_keys (variableAttrs_keys i)
        (show "returnType" ∉ ["type", "hasInitializer", "initializerValue"] by decide))]
    exact lookup_eq_none_of_all_keys (propertyAttrs_keys i)
      (show "returnType" ∉ ["type", "visibility", "static", "readonly"] by decide)

/-- Witness for the amended C1 at the concrete unannotated function node
`function f() { return 1; }`. -/
theorem c1_returnType_follows_checker_type_witness :
    (getNodeAttributes c1Info).lookup "returnType" = some (AttrVal.str "number") :=
  (c1_returnType_follows_checker_type c1Info (Or.inl rfl)).1
    { text := "number", isVoid := false } rfl rfl rfl

/-! ## Single-file error handling (claim C4) -/

/-- C4: `parseTypeScriptFile` never surfaces an unhandled fault — every
input yields an AST or an error envelope; a missing path yields exactly
`{error: "File not found: <path>"}` no matter how the parser oracle would
behave (the parser is not invoked); a thrown parser failure yields an
envelope whose message contains both the file path and the underlying
failure description. -/
theorem c4_parseTypeScriptFile_error_envelopes (fs : FS) (p e : String) :
    ((∃ node, V1.parseTypeScriptFile fs p = .ok node) ∨
     (∃ msg, V1.parseTypeScriptFile fs p = .err msg)) ∧
    (fs.access p = false →
       V1.parseTypeScriptFile fs p = .err ("File not found: " ++ p) ∧
       ∀ g : String → Except String SFile,
         V1.parseTypeScriptFile { fs with parse := g } p = .err ("File not found: " ++ p)) ∧
    (fs.access p = true → fs.parse p = .error e →
       ∃ msg, V1.parseTypeScriptFile fs p = .err msg ∧
         strContains msg p ∧ strContains msg e) := by
  refine ⟨?_, ?_, ?_⟩
  · cases h : V1.parseTypeScriptFile fs p with
    | ok n => exact Or.inl ⟨n, rfl⟩
    | err m => exact Or.inr ⟨m, rfl⟩
  · intro h
    exact ⟨by simp [V1.parseTypeScriptFile, h], fun g => by simp [V1.parseTypeScriptFile, h]⟩
  · intro hacc hparse
    refine ⟨"Failed to parse " ++ p ++ ": " ++ e, ?_, ?_, ?_⟩
    · simp [V1.parseTypeScriptFile, hacc, hparse]
    · exact ⟨"Failed to parse ", ": " ++ e, by rw [String.append_assoc]⟩
    · exact ⟨"Failed to parse " ++ p ++ ": ", "", by rw [String.append_empty]⟩

/-- Witness for C4: the missing-file branch at `fsMissing`, and the
parser-failure branch at `fsParseFail`. -/
theorem c4_parseTypeScriptFile_error_envelopes_witness :
    V1.parseTypeScriptFile fsMissing "src/app.ts" = .err ("File not found: " ++ "src/app.ts") ∧
    ∃ msg, V1.parseTypeScriptFile fsParseFail "src/app.ts" = .err msg ∧
      strContains msg "src/app.ts" ∧ strContains msg "Unexpected token" :=
  ⟨((c4_parseTypeScriptFile_error_envelopes fsMissing "src/app.ts" "x").2.1 rfl).1,
   (c4_parseTypeScriptFile_error_envelopes fsParseFail "src/app.ts" "Unexpected token").2.2
     rfl rfl⟩

/-! ## Directory validation (claim C3) -/

/-- C3 as written fails on the code: the claim covers both copies of
`parseDirectory`, but the first copy performs no directory validation at
all — on a missing path its enumeration rejects and the catch block
returns a *mapping* `{<dirPath>: {error: ...}}` whose single entry has
exactly the shape of a per-file error entry, not the distinct top-level
envelope. -/
theorem c3_counterexample :
    ¬ dirValidationSpecClaim fsMissing "missing" defaultExtensions := by
  intro h
  obtain ⟨msg, hm⟩ := (h (Or.inl rfl)).1
  have hv1 : V1.parseDirectory fsMissing "missing" defaultExtensions =
      .mapping [("missing",
        .err ("Failed to parse directory " ++ "missing" ++ ": " ++
              "ENOENT: no such file or directory"))] := rfl
  rw [hv1] at hm
  exact DirResult.noConfusion hm

/-- C3 (amended): the *second* copy of `parseDirectory` validates the path
up front: when the path is missing or not a directory it returns the
top-level envelope `{error: "Directory not found: <path>"}` — a shape
distinct from a per-file mapping entry — and does so independently of the
directory-listing and parser oracles (nothing is enumerated or parsed).
The *first* copy performs no validation; when its enumeration rejects, it
returns a result *mapping* whose single entry, keyed by the directory
path, has the per-file error-entry shape. -/
theorem c3_directory_validation (fs : FS) (p e : String) (exts : List String)
    (hinvalid : fs.existsSync p = false ∨ fs.statIsDirectory p = false)
    (henum : fs.readTree p = .error e) :
    V2.parseDirectory fs p exts = .envelope ("Directory not found: " ++ p) ∧
    (∀ rt pr ac, V2.parseDirectory { fs with readTree := rt, parse := pr, access := ac } p exts
        = .envelope ("Directory not found: " ++ p)) ∧
    (∀ msg entries, DirResult.envelope msg ≠ DirResult.mapping entries) ∧
    V1.parseDirectory fs p exts =
      .mapping [(p, .err ("Failed to parse directory " ++ p ++ ": " ++ e))] := by
  refine ⟨?_, ?_, ?_, ?_⟩
  · rcases hinvalid with h | h <;> simp [V2.parseDirectory, h]
  · intro rt pr ac
    rcases hinvalid with h | h <;> simp [V2.parseDirectory, h]
  · intro msg entries hne
    exact DirResult.noConfusion hne
  · simp [V1.parseDirectory, V1.findFilesRecursively, henum]

/-- Witness for the amended C3 at the concrete missing path. -/
theorem c3_directory_validation_witness :
    V2.parseDirectory fsMissing "missing" defaultExtensions =
      .envelope ("Directory not found: " ++ "missing") ∧
    V1.parseDirectory fsMissing "missing" defaultExtensions =
      .mapping [("missing",
        .err ("Failed to parse directory " ++ "missing" ++ ": " ++
              "ENOENT: no such file or directory"))] :=
  ⟨(c3_directory_validation fsMissing "missing" "ENOENT: no such file or directory"
      defaultExtensions (Or.inl rfl) rfl).1,
   (c3_directory_validation fsMissing "missing" "ENOENT: no such file or directory"
      defaultExtensions (Or.inl rfl) rfl).2.2.2⟩

/-! ## Characterization of the traversal -/

theorem ASTNode.data_mk (d : ANodeData) (ch : Option (List ASTNode)) :
    (ASTNode.mk d ch).data = d := rfl

theorem ASTNode.children_mk (d : ANodeData) (ch : Option (List ASTNode)) :
    (ASTNode.mk d ch).children = ch := rfl

theorem ASTNode.pushChild_def (a b : ASTNode) :
    a.pushChild b = ASTNode.mk a.data (some ((a.children.getD []) ++ [b])) := by
  cases a
  rfl

theorem TSNode.listRec (P : List TSNode → Prop)
    (hnil : P [])
    (hcons : ∀ i ch rest, P ch → P rest → P (TSNode.mk i ch :: rest)) :
    ∀ l, P l
  | [] => hnil
  | TSNode.mk i ch :: rest =>
      hcons i ch rest (TSNode.listRec P hnil hcons ch) (TSNode.listRec P hnil hcons rest)

theorem V1.keptList_cons_skip {c : TSNode} (cs : List TSNode)
    (hs : shouldSkipNode c = true) : V1.keptList (c :: cs) = V1.keptList cs := by
  simp [V1.keptList, List.filter_cons, hs]

theorem V1.keptList_cons_keep {c : TSNode} (cs : List TSNode)
    (hs : shouldSkipNode c = false) :
    V1.keptList (c :: cs) = V1.buildASTNode c :: V1.keptList cs := by
  simp [V1.keptList, List.filter_cons, hs]

theorem V1.processNode_eq (n : TSNode) (parent : ASTNode) :
    V1.processNode n parent =
      if shouldSkipNode n then parent else parent.pushChild (V1.buildASTNode n) := by
  cases n
  simp [V1.processNode, V1.buildASTNode]

theorem V1.processList_spec (l : List TSNode) : ∀ a : ASTNode,
    (V1.keptList l = [] → V1.processList l a = a) ∧
    (V1.keptList l ≠ [] →
      V1.processList l a =
        ASTNode.mk a.data (some ((a.children.getD []) ++ V1.keptList l))) := by
  induction l with
  | nil => exact fun a => ⟨fun _ => rfl, fun h => absurd rfl h⟩
  | cons c cs ih =>
      intro a
      rw [show V1.processList (c :: cs) a = V1.processList cs (V1.processNode c a) from rfl,
          V1.processNode_eq]
      cases hs : shouldSkipNode c with
      | true =>
          rw [if_pos rfl, V1.keptList_cons_skip cs hs]
          exact ih a
      | false =>
          rw [if_neg (by simp)]
          rw [V1.keptList_cons_keep cs hs]
          constructor
          · intro h
            exact absurd h (by simp)
          · intro _
            cases hk : V1.keptList cs with
            | nil =>
                rw [(ih (a.pushChild (V1.buildASTNode c))).1 hk, ASTNode.pushChild_def]
            | cons k ks =>
                rw [(ih (a.pushChild (V1.buildASTNode c))).2 (by simp [hk]),
                    ASTNode.pushChild_def, hk]
                simp [ASTNode.data_mk, ASTNode.children_mk]

theorem V1.buildASTNode_eq_nil {i : NodeInfo} {ch : List TSNode}
    (h : V1.keptList ch = []) :
    V1.buildASTNode (TSNode.mk i ch) =
      ASTNode.mk (V1.addNodeSpecificDetails i (V1.initialData i)) none :=
  (V1.processList_spec ch _).1 h

theorem V1.buildASTNode_eq_cons {i : NodeInfo} {ch : List TSNode}
    (h : V1.keptList ch ≠ []) :
    V1.buildASTNode (TSNode.mk i ch) =
      ASTNode.mk (V1.addNodeSpecificDetails i (V1.initialData i))
        (some (V1.keptList ch)) := by
  rw [show V1.buildASTNode (TSNode.mk i ch) =
        V1.processList ch (ASTNode.mk (V1.addNodeSpecificDetails i (V1.initialData i)) none)
      from rfl]
  rw [(V1.processList_spec ch _).2 h]
  rfl

theorem V1.createNodeFromSourceFile_eq (sf : SFile) :
    V1.createNodeFromSourceFile sf =
      ASTNode.mk
        { nodeType := "SourceFile", name := some (basename sf.filePath),
          startLine := some 1, endLine := some sf.endLine }
        (some (V1.keptList sf.statements)) := by
  rw [show V1.createNodeFromSourceFile sf =
        V1.processList sf.statements
          (ASTNode.mk
            { nodeType := "SourceFile", name := some (basename sf.filePath),
              startLine := some 1, endLine := some sf.endLine }
            (some [])) from rfl]
  cases hk : V1.keptList sf.statements with
  | nil => rw [(V1.processList_spec sf.statements _).1 hk]
  | cons k ks =>
      rw [(V1.processList_spec sf.statements _).2 (by simp [hk]), hk]
      simp [ASTNode.data_mk, ASTNode.children_mk]

theorem V1.addNodeSpecificDetails_preserves (i : NodeInfo) (d : ANodeData) :
    (V1.addNodeSpecificDetails i d).nodeType = d.nodeType ∧
    (V1.addNodeSpecificDetails i d).startLine = d.startLine ∧
    (V1.addNodeSpecificDetails i d).endLine = d.endLine := by
  unfold V1.addNodeSpecificDetails
  repeat' split
  all_goals simp [apply_ite]

theorem V1.addNodeSpecificDetails_attributes (i : NodeInfo) (d : ANodeData) :
    (V1.addNodeSpecificDetails i d).attributes = d.attributes ∨
    ((V1.addNodeSpecificDetails i d).attributes = some (getNodeAttributes i) ∧
     getNodeAttributes i ≠ []) := by
  unfold V1.addNodeSpecificDetails
  dsimp only
  repeat' split
  all_goals
    first
      | (left; rfl)
      | (right; refine ⟨rfl, ?_⟩; exact List.length_pos.mp (by assumption))

/-! ## Noise filtering (claim C2) -/

/-- C2: the normalizer drops exactly the three noise kinds — end-of-file
marker, semicolon, comma — together with their subtrees (a skipped node
contributes nothing to its parent), keeps every other kind (a non-skipped
node is pushed onto its parent), and a file whose top-level statements are
all noise yields a root with an empty children list. -/
theorem c2_noise_filtering (n : TSNode) (parent : ASTNode) (sf : SFile)
    (hall : ∀ st ∈ sf.statements, shouldSkipNode st = true) :
    (shouldSkipNode n = true ↔ n.info.kind ∈ skipKinds) ∧
    (shouldSkipNode n = true → V1.processNode n parent = parent) ∧
    (shouldSkipNode n = false →
       V1.processNode n parent = parent.pushChild (V1.buildASTNode n)) ∧
    (V1.createNodeFromSourceFile sf).children = some [] := by
  refine ⟨?_, ?_, ?_, ?_⟩
  · simp [shouldSkipNode, List.contains, List.elem_iff]
  · intro h
    rw [V1.processNode_eq, if_pos h]
  · intro h
    rw [V1.processNode_eq, if_neg (by simp [h])]
  · rw [V1.createNodeFromSourceFile_eq, ASTNode.children_mk]
    have hfil : List.filter (fun c => !shouldSkipNode c) sf.statements = [] :=
      List.filter_eq_nil_iff.mpr (fun a ha => by simp [hall a ha])
    simp [V1.keptList, hfil]

/-- Witness for C2: a file containing only a semicolon token normalizes to
a root with empty children. -/
theorem c2_noise_filtering_witness :
    (V1.createNodeFromSourceFile
        { filePath := "p.ts", endLine := 1,
          statements := [TSNode.mk semicolonInfo []] }).children = some [] :=
  (c2_noise_filtering (TSNode.mk semicolonInfo [])
      (ASTNode.mk { nodeType := "SourceFile" } (some []))
      { filePath := "p.ts", endLine := 1, statements := [TSNode.mk semicolonInfo []] }
      (by
        intro st hst
        have h := List.mem_singleton.mp hst
        rw [h]
        decide)).2.2.2

/-! ## No empty attributes or children fields (claim C8) -/

theorem V1.noEmpty_keptList : ∀ l : List TSNode,
    noEmptyFieldsListB (V1.keptList l) = true := by
  refine TSNode.listRec _ (by rfl) ?_
  intro i ch rest ihch ihrest
  cases hs : shouldSkipNode (TSNode.mk i ch) with
  | true =>
      rw [V1.keptList_cons_skip rest hs]
      exact ihrest
  | false =>
      rw [V1.keptList_cons_keep rest hs]
      have hattr : (V1.addNodeSpecificDetails i (V1.initialData i)).attributes ≠ some [] := by
        rcases V1.addNodeSpecificDetails_attributes i (V1.initialData i) with h | ⟨h, hne⟩
        · rw [h]
          intro hc
          exact Option.noConfusion hc
        · rw [h]
          intro hc
          exact hne (by injection hc)
      cases hk : V1.keptList ch with
      | nil =>
          rw [V1.buildASTNode_eq_nil hk]
          simp [noEmptyFieldsListB, noEmptyFieldsB, beq_eq_false_iff_ne.mpr hattr, ihrest]
      | cons k ks =>
          have ihch2 := ihch
          rw [hk] at ihch2
          simp [noEmptyFieldsListB] at ihch2
          rw [V1.buildASTNode_eq_cons (by simp [hk]), hk]
          simp [noEmptyFieldsListB, noEmptyFieldsB, beq_eq_false_iff_ne.mpr hattr,
            ihch2, ihrest]

/-- C8: no normalized node carries an empty attributes record or (for
non-root nodes) an empty children list — both are omitted when empty —
while the root always carries a children field (possibly empty) and no
attributes field. -/
theorem c8_no_empty_attribute_or_children_fields (sf : SFile) :
    (V1.createNodeFromSourceFile sf).children.isSome = true ∧
    (V1.createNodeFromSourceFile sf).data.attributes = none ∧
    noEmptyFieldsListB ((V1.createNodeFromSourceFile sf).children.getD []) = true := by
  rw [V1.createNodeFromSourceFile_eq]
  exact ⟨rfl, rfl, by simpa [ASTNode.children_mk] using V1.noEmpty_keptList sf.statements⟩

/-! ## Span containment (claim C5) -/

theorem V1.contained_keptList : ∀ l : List TSNode, ∀ s e : Nat,
    spanNestedListB s e l = true → containedListB s e (V1.keptList l) = true := by
  refine TSNode.listRec _ ?_ ?_
  · intro s e _
    rfl
  · intro i ch rest ihch ihrest s e h
    simp only [spanNestedListB, spanNestedB, TSNode.info, Bool.and_eq_true,
      decide_eq_true_eq] at h
    obtain ⟨⟨⟨h1, h2⟩, h3⟩, h4⟩ := h
    have hpres := V1.addNodeSpecificDetails_preserves i (V1.initialData i)
    have hsl : (V1.addNodeSpecificDetails i (V1.initialData i)).startLine = some i.startLine := by
      rw [hpres.2.1]; rfl
    have hel : (V1.addNodeSpecificDetails i (V1.initialData i)).endLine = some i.endLine := by
      rw [hpres.2.2]; rfl
    cases hs : shouldSkipNode (TSNode.mk i ch) with
    | true =>
        rw [V1.keptList_cons_skip rest hs]
        exact ihrest s e h4
    | false =>
        rw [V1.keptList_cons_keep rest hs]
        cases hk : V1.keptList ch with
        | nil =>
            rw [V1.buildASTNode_eq_nil hk]
            simp [containedListB, containedB, hsl, hel, h1, h2]
            exact ihrest s e h4
        | cons k ks =>
            have ihch2 := ihch i.startLine i.endLine h3
            rw [hk] at ihch2
            rw [V1.buildASTNode_eq_cons (by simp [hk]), hk]
            simp [containedListB, containedB, hsl, hel, h1, h2]
            exact ⟨by simpa [containedListB] using ihch2, ihrest s e h4⟩

/-- C5: in every output tree, each non-root node's `startLine`/`endLine`
lie within its parent's bounds (root bounds `1`..file end line), assuming
the parser reports each statement's span inside the file bounds and each
node's child spans inside that node's span. -/
theorem c5_span_containment (sf : SFile)
    (h : spanNestedListB 1 sf.endLine sf.statements = true) :
    spansContained (V1.createNodeFromSourceFile sf) = true := by
  rw [V1.createNodeFromSourceFile_eq]
  simpa [spansContained] using V1.contained_keptList sf.statements 1 sf.endLine h

/-- Witness for C5 at the one-class sample file (class spans lines 2-4 in
a 5-line file). -/
theorem c5_span_containment_witness :
    spansContained (V1.createNodeFromSourceFile sampleFile) = true :=
  c5_span_containment sampleFile (by decide)

/-! ## Attribute vocabulary closure (claim C7) -/

theorem classAttrs_off {i : NodeInfo} (h : i.isClassDeclaration = false) :
    classAttrs i = [] := by
  simp [classAttrs, h]

theorem functionAttrs_off {i : NodeInfo} (h1 : i.isFunctionDeclaration = false)
    (h2 : i.isMethodDeclaration = false) (h3 : i.isConstructorDeclaration = false) :
    functionAttrs i = [] := by
  simp [functionAttrs, h1, h2, h3]

theorem interfaceAttrs_off {i : NodeInfo} (h : i.isInterfaceDeclaration = false) :
    interfaceAttrs i = [] := by
  simp [interfaceAttrs, h]

theorem variableAttrs_off {i : NodeInfo} (h : i.isVariableDeclaration = false) :
    variableAttrs i = [] := by
  simp [variableAttrs, h]

theorem propertyAttrs_off {i : NodeInfo} (h : i.isPropertyDeclaration = false) :
    propertyAttrs i = [] := by
  simp [propertyAttrs, h]

/-- On a consistently tagged node, every key assigned by
`getNodeAttributes` belongs to the §4.1 vocabulary of the node's kind. -/
theorem getNodeAttributes_vocab (i : NodeInfo) (h : wellTaggedInfo i = true) :
    (getNodeAttributes i).all (fun kv => (vocab i.kindName).contains kv.1) = true := by
  simp only [wellTaggedInfo, Bool.and_eq_true, beq_iff_eq] at h
  obtain ⟨⟨⟨⟨⟨⟨h1, h2⟩, h3⟩, h4⟩, h5⟩, h6⟩, h7⟩ := h
  by_cases k1 : i.kindName = "ClassDeclaration"
  · rw [k1] at h1 h2 h3 h4 h5 h6 h7
    simp only [String.reduceBEq] at h1 h2 h3 h4 h5 h6 h7
    rw [getNodeAttributes, functionAttrs_off h2 h3 h4, interfaceAttrs_off h5,
      variableAttrs_off h6, propertyAttrs_off h7, k1]
    simpa [vocab] using classAttrs_keys i
  by_cases k2 : i.kindName = "FunctionDeclaration"
  · rw [k2] at h1 h2 h3 h4 h5 h6 h7
    simp only [String.reduceBEq] at h1 h2 h3 h4 h5 h6 h7
    rw [getNodeAttributes, classAttrs_off h1, interfaceAttrs_off h5,
      variableAttrs_off h6, propertyAttrs_off h7, k2]
    simpa [vocab] using functionAttrs_keys i
  by_cases k3 : i.kindName = "MethodDeclaration"
  · rw [k3] at h1 h2 h3 h4 h5 h6 h7
    simp only [String.reduceBEq] at h1 h2 h3 h4 h5 h6 h7
    rw [getNodeAttributes, classAttrs_off h1, interfaceAttrs_off h5,
      variableAttrs_off h6, propertyAttrs_off h7, k3]
    simpa [vocab] using functionAttrs_keys i
  by_cases k4 : i.kindName = "Constructor"
  · rw [k4] at h1 h2 h3 h4 h5 h6 h7
    simp only [String.reduceBEq] at h1 h2 h3 h4 h5 h6 h7
    rw [getNodeAttributes, classAttrs_off h1, interfaceAttrs_off h5,
      variableAttrs_off h6, propertyAttrs_off h7, k4]
    simpa [vocab] using functionAttrs_keys i
  by_cases k5 : i.kindName = "InterfaceDeclaration"
  · rw [k5] at h1 h2 h3 h4 h5 h6 h7
    simp only [String.reduceBEq] at h1 h2 h3 h4 h5 h6 h7
    rw [getNodeAttributes, classAttrs_off h1, functionAttrs_off h2 h3 h4,
      variableAttrs_off h6, propertyAttrs_off h7, k5]
    simpa [vocab] using interfaceAttrs_keys i
  by_cases k6 : i.kindName = "VariableDeclaration"
  · rw [k6] at h1 h2 h3 h4 h5 h6 h7
    simp only [String.reduceBEq] at h1 h2 h3 h4 h5 h6 h7
    rw [getNodeAttributes, classAttrs_off h1, functionAttrs_off h2 h3 h4,
      interfaceAttrs_off h5, propertyAttrs_off h7, k6]
    simpa [vocab] using variableAttrs_keys i
  by_cases k7 : i.kindName = "PropertyDeclaration"
  · rw [k7] at h1 h2 h3 h4 h5 h6 h7
    simp only [String.reduceBEq] at h1 h2 h3 h4 h5 h6 h7
    rw [getNodeAttributes, classAttrs_off h1, functionAttrs_off h2 h3 h4,
      interfaceAttrs_off h5, variableAttrs_off h6, k7]
    simpa [vocab] using propertyAttrs_keys i
  · have f1 : i.isClassDeclaration = false := by
      rw [h1]; exact beq_eq_false_iff_ne.mpr k1
    have f2 : i.isFunctionDeclaration = false := by
      rw [h2]; exact beq_eq_false_iff_ne.mpr k2
    have f3 : i.isMethodDeclaration = false := by
      rw [h3]; exact beq_eq_false_iff_ne.mpr k3
    have f4 : i.isConstructorDeclaration = false := by
      rw [h4]; exact beq_eq_false_iff_ne.mpr k4
    have f5 : i.isInterfaceDeclaration = false := by
      rw [h5]; exact beq_eq_false_iff_ne.mpr k5
    have f6 : i.isVariableDeclaration = false := by
      rw [h6]; exact beq_eq_false_iff_ne.mpr k6
    have f7 : i.isPropertyDeclaration = false := by
      rw [h7]; exact beq_eq_false_iff_ne.mpr k7
    rw [getNodeAttributes, classAttrs_off f1, functionAttrs_off f2 f3 f4,
      interfaceAttrs_off f5, variableAttrs_off f6, propertyAttrs_off f7]
    rfl

theorem V1.attrKeys_keptList : ∀ l : List TSNode,
    wellTaggedListB l = true → attrKeysOKListB (V1.keptList l) = true := by
  refine TSNode.listRec _ ?_ ?_
  · intro _
    rfl
  · intro i ch rest ihch ihrest h
    simp only [wellTaggedListB, wellTaggedB, Bool.and_eq_true] at h
    obtain ⟨⟨hi, hch⟩, hrest⟩ := h
    cases hs : shouldSkipNode (TSNode.mk i ch) with
    | true =>
        rw [V1.keptList_cons_skip rest hs]
        exact ihrest hrest
    | false =>
        rw [V1.keptList_cons_keep rest hs]
        have hDt : (V1.addNodeSpecificDetails i (V1.initialData i)).nodeType = i.kindName := by
          rw [(V1.addNodeSpecificDetails_preserves i (V1.initialData i)).1]; rfl
        have hattrs : ((V1.addNodeSpecificDetails i (V1.initialData i)).attributes.getD []).all
            (fun kv =>
              (vocab (V1.addNodeSpecificDetails i (V1.initialData i)).nodeType).contains kv.1)
            = true := by
          rw [hDt]
          rcases V1.addNodeSpecificDetails_attributes i (V1.initialData i) with ha | ⟨ha, _⟩
          · rw [ha]
            rfl
          · rw [ha]
            simpa using getNodeAttributes_vocab i hi
        cases hk : V1.keptList ch with
        | nil =>
            rw [V1.buildASTNode_eq_nil hk]
            simp only [attrKeysOKListB, attrKeysOKB, Bool.and_eq_true, ASTNode.data_mk]
            exact ⟨hattrs, ihrest hrest⟩
        | cons k ks =>
            have ihch2 := ihch hch
            rw [hk] at ihch2
            rw [V1.buildASTNode_eq_cons (by simp [hk]), hk]
            simp only [attrKeysOKListB, attrKeysOKB, Bool.and_eq_true, ASTNode.data_mk]
            simp only [attrKeysOKListB, Bool.and_eq_true] at ihch2
            exact ⟨⟨hattrs, ihch2.1, ihch2.2⟩, ihrest hrest⟩

/-- C7: every node in the output tree draws its attribute keys from the
fixed §4.1 vocabulary of its kind (class: extends/implements;
function/method/constructor: parameters/returnType; interface: extends;
variable: type/hasInitializer/initializerValue; property:
type/visibility/static/readonly; every other kind, including the root:
none), assuming the parser's kind guards answer consistently with each
node's kind name. -/
theorem c7_attribute_vocabulary_closure (sf : SFile)
    (h : wellTaggedListB sf.statements = true) :
    attrKeysOKListB [V1.createNodeFromSourceFile sf] = true := by
  rw [V1.createNodeFromSourceFile_eq]
  simp only [attrKeysOKListB, attrKeysOKB, Bool.and_eq_true, ASTNode.data_mk]
  exact ⟨⟨by rfl, by simpa using V1.attrKeys_keptList sf.statements h⟩, trivial⟩

/-- Witness for C7 at the one-class sample file. -/
theorem c7_attribute_vocabulary_closure_witness :
    attrKeysOKListB [V1.createNodeFromSourceFile sampleFile] = true :=
  c7_attribute_vocabulary_closure sampleFile (by decide)

/-! ## Equivalence of the two engine copies (claim C10) -/

theorem addNodeSpecificDetails_copies_eq (i : NodeInfo) (d : ANodeData)
    (h : agreeInfo i = true) :
    V1.addNodeSpecificDetails i d = V2.addNodeSpecificDetails i d := by
  simp only [agreeInfo, Bool.and_eq_true, beq_iff_eq] at h
  obtain ⟨h1, h2⟩ := h
  have hn : V1.getNodeName i = V2.getNodeName i := by
    unfold V1.getNodeName V2.getNodeName
    rw [h1]
  have hd : V1.getNodeDocComment i = V2.getNodeDocComment i := by
    unfold V1.getNodeDocComment V2.getNodeDocComment
    rw [h2]
  unfold V1.addNodeSpecificDetails V2.addNodeSpecificDetails
  rw [hn, hd]

theorem processList_copies_eq : ∀ l : List TSNode, agreeListB l = true →
    ∀ a : ASTNode, V1.processList l a = V2.processList l a := by
  refine TSNode.listRec _ ?_ ?_
  · intro _ a
    rfl
  · intro i ch rest ihch ihrest h a
    simp only [agreeListB, agreeB, Bool.and_eq_true] at h
    obtain ⟨⟨hi, hch⟩, hrest⟩ := h
    rw [show V1.processList (TSNode.mk i ch :: rest) a =
          V1.processList rest (V1.processNode (TSNode.mk i ch) a) from rfl,
        show V2.processList (TSNode.mk i ch :: rest) a =
          V2.processList rest (V2.processNode (TSNode.mk i ch) a) from rfl]
    have hnode : V1.processNode (TSNode.mk i ch) a = V2.processNode (TSNode.mk i ch) a := by
      cases hs : shouldSkipNode (TSNode.mk i ch) with
      | true => simp [V1.processNode, V2.processNode, hs]
      | false =>
          simp only [V1.processNode, V2.processNode, hs, Bool.false_eq_true, if_false]
          rw [show V1.initialData i = V2.initialData i from rfl,
              addNodeSpecificDetails_copies_eq i (V2.initialData i) hi,
              ihch hch]
    rw [hnode]
    exact ihrest hrest _

theorem createNodeFromSourceFile_copies_eq (sf : SFile)
    (h : agreeListB sf.statements = true) :
    V1.createNodeFromSourceFile sf = V2.createNodeFromSourceFile sf := by
  rw [show V1.createNodeFromSourceFile sf =
        V1.processList sf.statements
          (ASTNode.mk
            { nodeType := "SourceFile", name := some (basename sf.filePath),
              startLine := some 1, endLine := some sf.endLine }
            (some [])) from rfl,
      show V2.createNodeFromSourceFile sf =
        V2.processList sf.statements
          (ASTNode.mk
            { nodeType := "SourceFile", name := some (basename sf.filePath),
              startLine := some 1, endLine := some sf.endLine }
            (some [])) from rfl]
  exact processList_copies_eq sf.statements h _

/-- C10: the two near-duplicate single-file implementations — the first
copy (asynchronous `fs.promises.access` existence check, `isNameable` /
`isJSDocable` guards) and the second copy (synchronous `fs.existsSync`,
`isNameableNode` / `isJSDocableNode` guards) — return identical results on
every file: the same tree on success and the same envelope on failure.
The hypotheses state that the two existence probes agree on the path and
that the two guard spellings denote the same `ts-morph` capability on
every parsed node. -/
theorem c10_single_file_copies_equivalent (fs : FS) (p : String)
    (hacc : fs.access p = fs.existsSync p)
    (hagree : ∀ sf, fs.parse p = Except.ok sf → agreeListB sf.statements = true) :
    V1.parseTypeScriptFile fs p = V2.parseTypeScriptFile fs p := by
  unfold V1.parseTypeScriptFile V2.parseTypeScriptFile
  rw [hacc]
  cases he : fs.existsSync p with
  | false => simp [he]
  | true =>
      simp only [he, Bool.not_true, Bool.false_eq_true, if_false]
      cases hp : fs.parse p with
      | ok sf => simp [hp, createNodeFromSourceFile_copies_eq sf (hagree sf hp)]
      | error e => simp [hp]

/-- Witness for C10 at the sample file system, whose parse result is the
one-class `sampleFile`. -/
theorem c10_single_file_copies_equivalent_witness :
    V1.parseTypeScriptFile fsSample "src/sample.ts" =
      V2.parseTypeScriptFile fsSample "src/sample.ts" :=
  c10_single_file_copies_equivalent fsSample "src/sample.ts" rfl
    (by
      intro sf h
      injection h with h2
      rw [← h2]
      decide)

/-! ## Result-mapping lemmas (claim C6) -/

theorem lookup_map_setKey_ne (m : List (String × FileResult)) (k : String)
    (v : FileResult) (g : String) (h : g ≠ k) :
    (m.map (fun p => if p.1 == k then (k, v) else p)).lookup g = m.lookup g := by
  induction m with
  | nil => simp
  | cons p rest ih =>
      obtain ⟨p1, p2⟩ := p
      by_cases hp : p1 = k
      · have hg1 : (g == k) = false := beq_eq_false_iff_ne.mpr h
        subst hp
        simp only [List.map_cons, beq_self_eq_true, if_true, List.lookup_cons, hg1]
        exact ih
      · have hpk : (p1 == k) = false := beq_eq_false_iff_ne.mpr hp
        simp only [List.map_cons, hpk, Bool.false_eq_true, if_false, List.lookup_cons]
        cases hg : (g == p1) with
        | true => rfl
        | false => exact ih

theorem lookup_map_setKey_self (m : List (String × FileResult)) (k : String)
    (v : FileResult) (hany : (m.any fun p => p.1 == k) = true) :
    (m.map (fun p => if p.1 == k then (k, v) else p)).lookup k = some v := by
  induction m with
  | nil => simp at hany
  | cons p rest ih =>
      obtain ⟨p1, p2⟩ := p
      by_cases hp : p1 = k
      · subst hp
        simp only [List.map_cons, beq_self_eq_true, if_true, List.lookup_cons]
      · have hpk : (p1 == k) = false := beq_eq_false_iff_ne.mpr hp
        have hkp : (k == p1) = false := beq_eq_false_iff_ne.mpr (fun hh => hp hh.symm)
        simp only [List.map_cons, hpk, Bool.false_eq_true, if_false, List.lookup_cons, hkp]
        apply ih
        simp only [List.any_cons, hpk, Bool.false_or] at hany
        exact hany

theorem setKey_keys (m : List (String × FileResult)) (k : String) (v : FileResult) :
    (setKey m k v).map Prod.fst =
      if m.any (fun p => p.1 == k) then m.map Prod.fst else m.map Prod.fst ++ [k] := by
  unfold setKey
  split
  · simp only [List.map_map]
    apply List.map_congr_left
    intro p _
    obtain ⟨p1, p2⟩ := p
    by_cases hp : p1 = k
    · subst hp
      simp
    · simp [hp]
  · simp

theorem setKey_keys_mem (m : List (String × FileResult)) (k : String) (v : FileResult)
    (g : String) :
    g ∈ (setKey m k v).map Prod.fst ↔ g ∈ m.map Prod.fst ∨ g = k := by
  rw [setKey_keys]
  split
  · rename_i hany
    have hk : k ∈ m.map Prod.fst := by
      obtain ⟨p, hp, hbeq⟩ := List.any_eq_true.mp hany
      exact List.mem_map.mpr ⟨p, hp, beq_iff_eq.mp hbeq⟩
    constructor
    · exact Or.inl
    · rintro (h | rfl)
      · exact h
      · exact hk
  · simp

theorem setKey_keys_nodup (m : List (String × FileResult)) (k : String) (v : FileResult)
    (h : (m.map Prod.fst).Nodup) : ((setKey m k v).map Prod.fst).Nodup := by
  rw [setKey_keys]
  split
  · exact h
  · rename_i hany
    have hk : k ∉ m.map Prod.fst := by
      intro hmem
      obtain ⟨p, hp, hfst⟩ := List.mem_map.mp hmem
      have : (m.any fun q => q.1 == k) = true :=
        List.any_eq_true.mpr ⟨p, hp, beq_iff_eq.mpr hfst⟩
      simp_all
    rw [List.nodup_append]
    refine ⟨h, List.nodup_singleton k, ?_⟩
    intro a ha hak
    rw [List.mem_singleton] at hak
    exact hk (hak ▸ ha)

theorem setKey_lookup_self (m : List (String × FileResult)) (k : String) (v : FileResult) :
    (setKey m k v).lookup k = some v := by
  unfold setKey
  split
  · rename_i hany
    exact lookup_map_setKey_self m k v hany
  · rename_i hany
    have hm : m.lookup k = none := by
      apply lookup_eq_none_of_keys
      intro kv hkv heq
      exact hany (List.any_eq_true.mpr ⟨kv, hkv, beq_iff_eq.mpr heq⟩)
    rw [lookup_append_of_none hm]
    simp [List.lookup_cons]

theorem setKey_lookup_ne (m : List (String × FileResult)) (k : String) (v : FileResult)
    (g : String) (h : g ≠ k) : (setKey m k v).lookup g = m.lookup g := by
  unfold setKey
  split
  · exact lookup_map_setKey_ne m k v g h
  · cases hm : m.lookup g with
    | some v2 => exact lookup_append_of_some hm
    | none =>
        rw [lookup_append_of_none hm]
        simp [List.lookup_cons, beq_eq_false_iff_ne.mpr h, hm]

theorem foldSetKey_lookup (pf : String → FileResult) :
    ∀ (files : List String) (acc : List (String × FileResult)) (f : String),
      (files.foldl (fun r x => setKey r x (pf x)) acc).lookup f =
        if f ∈ files then some (pf f) else acc.lookup f := by
  intro files
  induction files with
  | nil => intro acc f; simp
  | cons f0 rest ih =>
      intro acc f
      rw [List.foldl_cons, ih (setKey acc f0 (pf f0)) f]
      by_cases hf : f ∈ rest
      · simp [hf, List.mem_cons]
      · by_cases hf0 : f = f0
        · subst hf0
          simp [hf, setKey_lookup_self]
        · simp [hf, hf0, setKey_lookup_ne acc f0 (pf f0) f hf0]

theorem foldSetKey_keys_mem (pf : String → FileResult) :
    ∀ (files : List String) (acc : List (String × FileResult)) (g : String),
      g ∈ ((files.foldl (fun r x => setKey r x (pf x)) acc).map Prod.fst) ↔
        g ∈ acc.map Prod.fst ∨ g ∈ files := by
  intro files
  induction files with
  | nil => intro acc g; simp
  | cons f0 rest ih =>
      intro acc g
      rw [List.foldl_cons, ih (setKey acc f0 (pf f0)) g, setKey_keys_mem]
      simp [List.mem_cons]
      tauto

theorem foldSetKey_keys_nodup (pf : String → FileResult) :
    ∀ (files : List String) (acc : List (String × FileResult)),
      (acc.map Prod.fst).Nodup →
      ((files.foldl (fun r x => setKey r x (pf x)) acc).map Prod.fst).Nodup := by
  intro files
  induction files with
  | nil => intro acc h; simpa using h
  | cons f0 rest ih =>
      intro acc h
      rw [List.foldl_cons]
      exact ih (setKey acc f0 (pf f0)) (setKey_keys_nodup acc f0 (pf f0) h)

/-- C6: when enumeration succeeds, `parseDirectory`'s result mapping has
exactly the enumerated files as keys — each exactly once — each key bound
to that file's own `parseTypeScriptFile` result; a file whose parse throws
gets an error entry under its key; and a file's entry depends only on the
file system's behavior at that file, so other files' failures cannot
affect it. -/
theorem c6_parseDirectory_exact_entries (fs : FS) (dirPath : String)
    (exts : List String) (files : List String) (f e : String)
    (henum : V1.findFilesRecursively fs dirPath exts = .ok files)
    (hf : f ∈ files) :
    ∃ m, V1.parseDirectory fs dirPath exts = .mapping m ∧
      (m.map Prod.fst).Nodup ∧
      (∀ g, g ∈ m.map Prod.fst ↔ g ∈ files) ∧
      m.lookup f = some (V1.parseTypeScriptFile fs f) ∧
      (fs.access f = true → fs.parse f = .error e →
         m.lookup f = some (.err ("Failed to parse " ++ f ++ ": " ++ e))) ∧
      (∀ fs2 : FS, fs2.access f = fs.access f → fs2.parse f = fs.parse f →
         ∀ files2 m2, V1.findFilesRecursively fs2 dirPath exts = .ok files2 →
           f ∈ files2 → V1.parseDirectory fs2 dirPath exts = .mapping m2 →
           m2.lookup f = m.lookup f) := by
  have hdir : V1.parseDirectory fs dirPath exts =
      .mapping (files.foldl (fun r x => setKey r x (V1.parseTypeScriptFile fs x)) []) := by
    unfold V1.parseDirectory
    rw [henum]
  refine ⟨_, hdir, ?_, ?_, ?_, ?_, ?_⟩
  · exact foldSetKey_keys_nodup _ files [] (by simp)
  · intro g
    rw [foldSetKey_keys_mem]
    simp
  · rw [foldSetKey_lookup]
    simp [hf]
  · intro hacc hparse
    rw [foldSetKey_lookup]
    simp only [hf, if_pos]
    unfold V1.parseTypeScriptFile
    simp [hacc, hparse]
  · intro fs2 hacc2 hparse2 files2 m2 henum2 hf2 hdir2
    have hdir2b : V1.parseDirectory fs2 dirPath exts =
        .mapping (files2.foldl (fun r x => setKey r x (V1.parseTypeScriptFile fs2 x)) []) := by
      unfold V1.parseDirectory
      rw [henum2]
    rw [hdir2b] at hdir2
    have hm2 : m2 = files2.foldl (fun r x => setKey r x (V1.parseTypeScriptFile fs2 x)) [] := by
      injection hdir2.symm
    have hpf : V1.parseTypeScriptFile fs2 f = V1.parseTypeScriptFile fs f := by
      unfold V1.parseTypeScriptFile
      rw [hacc2, hparse2]
    rw [hm2, foldSetKey_lookup, foldSetKey_lookup]
    simp [hf, hf2, hpf]

/-- Concrete enumeration of `fsDir`: `a.ts` matches, `b.txt` does not, and
`node_modules` is excluded from traversal. -/
theorem fsDir_enumeration :
    V1.findFilesRecursively fsDir "proj" defaultExtensions = .ok ["proj/a.ts"] := by
  have h1 : "a.ts".endsWith ".ts" = true := by
    simp +decide [String.endsWith, BEq.beq, Substring.beq, String.substrEq,
      String.substrEq.loop, Substring.takeRight, Substring.bsize, Substring.prevn,
      Substring.prev, String.prev, String.utf8PrevAux, String.toSubstring,
      Substring.startPos, Substring.str, String.endPos, String.utf8ByteSize,
      String.utf8ByteSize.go, String.get, String.utf8GetAux, String.atEnd]
  have h2 : "b.txt".endsWith ".ts" = false := by
    simp +decide [String.endsWith, BEq.beq, Substring.beq, String.substrEq,
      String.substrEq.loop, Substring.takeRight, Substring.bsize, Substring.prevn,
      Substring.prev, String.prev, String.utf8PrevAux, String.toSubstring,
      Substring.startPos, Substring.str, String.endPos, String.utf8ByteSize,
      String.utf8ByteSize.go, String.get, String.utf8GetAux, String.atEnd]
  have h3 : "b.txt".endsWith ".tsx" = false := by
    simp +decide [String.endsWith, BEq.beq, Substring.beq, String.substrEq,
      String.substrEq.loop, Substring.takeRight, Substring.bsize, Substring.prevn,
      Substring.prev, String.prev, String.utf8PrevAux, String.toSubstring,
      Substring.startPos, Substring.str, String.endPos, String.utf8ByteSize,
      String.utf8ByteSize.go, String.get, String.utf8GetAux, String.atEnd]
  simp +decide [V1.findFilesRecursively, fsDir, V1.traverse, V1.EXCLUDED_DIRS,
    defaultExtensions, pathJoin, h1, h2, h3]

/-- Witness for C6 at the concrete `fsDir` directory run. -/
theorem c6_parseDirectory_exact_entries_witness :
    ∃ m, V1.parseDirectory fsDir "proj" defaultExtensions = DirResult.mapping m ∧
      (m.map Prod.fst).Nodup ∧
      (∀ g, g ∈ m.map Prod.fst ↔ g ∈ ["proj/a.ts"]) ∧
      m.lookup "proj/a.ts" = some (V1.parseTypeScriptFile fsDir "proj/a.ts") := by
  obtain ⟨m, hm, hnodup, hkeys, hlookup, _, _⟩ :=
    c6_parseDirectory_exact_entries fsDir "proj" defaultExtensions ["proj/a.ts"]
      "proj/a.ts" "x" fsDir_enumeration (by decide)
  exact ⟨m, hm, hnodup, hkeys, hlookup⟩

end AstTs
